import Mathlib

/-!
# Mach helpers: the region scan and the memory write

Shallow embedding of `Sources/CMachHelpers/mach_helpers.c`.

The kernel entry points the file calls, `mach_vm_region_recurse`,
`mach_vm_write` and `mach_vm_read_overwrite`, are not part of the sources.  They are taken as parameters:
a kernel is a function of its own state (the target's memory map, which may
change between two calls) and of the arguments it is handed, and it returns
the status together with the values it leaves in the in/out variables.

Machine integers are natural numbers; the one addition of the scan,
`address += region_size`, is reduced modulo `2 ^ 64`, and the cast of the
write length to `mach_msg_type_number_t` is reduced modulo `2 ^ 32`.
-/

namespace MachHelpers

/-! ## Data model -/

/-- Status `KERN_SUCCESS` of a `kern_return_t`. -/
def KERN_SUCCESS : Int := 0

/-- Status `KERN_INVALID_ADDRESS`, used by the example kernels below for a
query past the last region. -/
def KERN_INVALID_ADDRESS : Int := 1

/-- Number of values of `mach_vm_address_t` and `mach_vm_size_t`. -/
def ADDRESS_SPACE : Nat := 2 ^ 64

/-- Number of values of `mach_msg_type_number_t`. -/
def MSG_NUMBER_SPACE : Nat := 2 ^ 32

/-- What one call of `mach_vm_region_recurse` leaves behind: its status and
the contents of the variables `address`, `region_size` and `depth`, all three
of which the call receives by reference. -/
structure RegionReply where
  kr : Int
  address : Nat
  region_size : Nat
  depth : Nat
deriving DecidableEq, Repr

/-- The kernel side of `mach_vm_region_recurse`: from the kernel state, the
task, the address and the depth found in the in/out variables, the reply and
the next kernel state.  The two other inputs of the call are the same at every
call (`region_size = 0` and `count = VM_REGION_SUBMAP_INFO_COUNT_64` are
assigned right before it), and `info` is never read by the caller. -/
abbrev Kernel (σ : Type) := σ → Nat → Nat → Nat → RegionReply × σ

/-- Outcome of one call of `mach_find_large_region`: the returned status, the
contents of `*out_address` and `*out_size` at return, and the kernel state. -/
structure ScanResult (σ : Type) where
  kr : Int
  out_address : Nat
  out_size : Nat
  kernel : σ
deriving DecidableEq

/-- Outcome of one pass through the body of `while (1)`: either the function
returns, or the loop goes round again with new contents of `address` and
`depth`. -/
inductive Step (σ : Type) where
  | ret (r : ScanResult σ)
  | next (kernel : σ) (address : Nat) (depth : Nat)
deriving DecidableEq

/-! ## The region scan -/

/-- Body of the `while (1)` loop of `mach_find_large_region` (lines 35-49). -/
def scan_iteration {σ : Type} (k : Kernel σ) (task min_size out_address out_size : Nat)
    (s : σ) (address depth : Nat) : Step σ :=
  let q := k s task address depth
  if q.1.kr ≠ KERN_SUCCESS then
    Step.ret ⟨q.1.kr, out_address, out_size, q.2⟩
  else if q.1.region_size ≥ min_size then
    Step.ret ⟨KERN_SUCCESS, q.1.address, q.1.region_size, q.2⟩
  else
    Step.next q.2 ((q.1.address + q.1.region_size) % ADDRESS_SPACE) q.1.depth

/-- The `while (1)` loop, run for at most `fuel` passes; `none` when the loop
has not returned by then. -/
def scan_loop {σ : Type} (k : Kernel σ) (task min_size out_address out_size : Nat) :
    Nat → σ → Nat → Nat → Option (ScanResult σ)
  | 0, _, _, _ => none
  | fuel + 1, s, address, depth =>
    match scan_iteration k task min_size out_address out_size s address depth with
    | Step.ret r => some r
    | Step.next s' address' depth' =>
      scan_loop k task min_size out_address out_size fuel s' address' depth'

/-- Embedding of `mach_find_large_region`: `address = hint_address`,
`depth = 1`, then the loop.  `out_address` and `out_size` are the contents of
the two output locations when the function is entered. -/
def mach_find_large_region {σ : Type} (fuel : Nat) (k : Kernel σ) (s : σ)
    (task hint_address min_size out_address out_size : Nat) : Option (ScanResult σ) :=
  scan_loop k task min_size out_address out_size fuel s hint_address 1

/-! ## The memory write -/

/-- The kernel side of `mach_vm_write`: from the kernel state, the task, the
address, the data pointer and the count, the status and the next state. -/
abbrev WriteKernel (σ β : Type) := σ → Nat → Nat → β → Nat → Int × σ

/-- Embedding of `mach_write_memory`: one call of `mach_vm_write`, the length
cast to the 32-bit `mach_msg_type_number_t`. -/
def mach_write_memory {σ β : Type} (mach_vm_write : WriteKernel σ β) (s : σ)
    (task address size : Nat) (buffer : β) : Int × σ :=
  mach_vm_write s task address buffer (size % MSG_NUMBER_SPACE)

/-! ## The memory read -/

/-- The kernel side of `mach_vm_read_overwrite`: from the kernel state, the
task, the address, the size, the destination pointer and the contents of the
out-size variable, the status and the next state. -/
abbrev ReadKernel (σ β : Type) := σ → Nat → Nat → Nat → β → Nat → Int × σ

/-- Embedding of `mach_read_memory`: `out_size = size`, then one call of
`mach_vm_read_overwrite` with the 64-bit size as it was received. -/
def mach_read_memory {σ β : Type} (mach_vm_read_overwrite : ReadKernel σ β) (s : σ)
    (task address size : Nat) (buffer : β) : Int × σ :=
  mach_vm_read_overwrite s task address size buffer size

/-! ## Observing the calls made to the kernel -/

/-- One call of `mach_vm_region_recurse` as the kernel sees it: the address
and the depth it was handed, and its reply. -/
structure Exchange where
  address : Nat
  depth : Nat
  reply : RegionReply
deriving DecidableEq, Repr

/-- A kernel that answers as `k` does and keeps, next to the state of `k`, the
list of the calls it has received, oldest first. -/
def record {σ : Type} (k : Kernel σ) : Kernel (σ × List Exchange) :=
  fun s task address depth =>
    ((k s.1 task address depth).1,
     ((k s.1 task address depth).2, s.2 ++ [⟨address, depth, (k s.1 task address depth).1⟩]))

/-- A write kernel that answers as `w` does and keeps the list of the counts
it has been handed, oldest first. -/
def recordWrite {σ β : Type} (w : WriteKernel σ β) : WriteKernel (σ × List Nat) β :=
  fun s task address buffer count =>
    ((w s.1 task address buffer count).1, ((w s.1 task address buffer count).2, s.2 ++ [count]))

/-- The result of a scan with the record of the calls dropped. -/
def ScanResult.forget {σ : Type} (r : ScanResult (σ × List Exchange)) : ScanResult σ :=
  ⟨r.kr, r.out_address, r.out_size, r.kernel.1⟩

/-! ## Example kernels -/

/-- First region of a list that ends after `a`. -/
def regionAt (regions : List (Nat × Nat)) (a : Nat) : Option (Nat × Nat) :=
  regions.find? (fun r => decide (a < r.1 + r.2))

/-- A kernel over a fixed list of `(base, size)` regions without submaps: a
query is answered with the first region that contains or follows the address,
found at nesting level 0, and with `KERN_INVALID_ADDRESS` past the last one. -/
def flatKernel (regions : List (Nat × Nat)) : Kernel Unit :=
  fun _ _ address depth =>
    match regionAt regions address with
    | some r => (⟨KERN_SUCCESS, r.1, r.2, 0⟩, ())
    | none => (⟨KERN_INVALID_ADDRESS, address, 0, depth⟩, ())

/-- A kernel that reports an empty region at the queried address, whatever
the address. -/
def emptyRegionKernel : Kernel Unit :=
  fun _ _ address depth => (⟨KERN_SUCCESS, address, 0, depth⟩, ())

/-- A write kernel that accepts every write. -/
def acceptingWrite : WriteKernel Unit Unit :=
  fun _ _ _ _ _ => (KERN_SUCCESS, ())

/-- A write kernel over a target memory, a byte for every address: it copies
`count` bytes from the buffer to `address` and reports success. -/
def copyingWrite : WriteKernel (Nat → Nat) (Nat → Nat) :=
  fun mem _ address buffer count =>
    (KERN_SUCCESS,
      fun a => if address ≤ a ∧ a < address + count then buffer (a - address) else mem a)

/-- A read kernel that accepts every read and keeps the list of the sizes it
has been handed, oldest first. -/
def sizeLoggingRead : ReadKernel (List Nat) Unit :=
  fun s _ _ size _ _ => (KERN_SUCCESS, s ++ [size])

/-! ## The walk, as a property of a list of calls -/

/-- The calls of `log` form one walk that starts at `address` with `depth`:
each call is made with the address and depth the variables hold, and after a
call they hold the reported base plus the reported size, as a 64-bit sum, and
the reported depth. -/
def Linked : Nat → Nat → List Exchange → Prop
  | _, _, [] => True
  | address, depth, e :: rest =>
    e.address = address ∧ e.depth = depth ∧
      Linked ((e.reply.address + e.reply.region_size) % ADDRESS_SPACE) e.reply.depth rest

/-- How the result of a scan relates to the last call `e` it made: either the
call failed, its status is returned and the outputs keep their contents, or it
reported a region of at least `min_size` bytes, which is stored. -/
def Outcome {σ : Type} (min_size out_address out_size : Nat) (e : Exchange)
    (res : ScanResult σ) : Prop :=
  (e.reply.kr ≠ KERN_SUCCESS ∧ res.kr = e.reply.kr ∧
      res.out_address = out_address ∧ res.out_size = out_size) ∨
  (e.reply.kr = KERN_SUCCESS ∧ min_size ≤ e.reply.region_size ∧ res.kr = KERN_SUCCESS ∧
      res.out_address = e.reply.address ∧ res.out_size = e.reply.region_size)

/-! ## The typed error of the specification -/

/-- Modelled from the spec: the typed error of a scan (sections 4.3 and 7),
built from the returned status by a caller-side wrapper that is not among the
sources. -/
inductive ScanError where
  | NoRegionFound
  | Unknown (code : Int)
deriving DecidableEq, Repr

/-- Modelled from the spec: the classification of a failure status, "end of
address space" as `NoRegionFound` and any other status as `Unknown code`.  The
status that stands for the end of the address space is a parameter. -/
def ScanError.ofStatus (endOfSpace kr : Int) : ScanError :=
  if kr = endOfSpace then ScanError.NoRegionFound else ScanError.Unknown kr

/-! ## Example inputs -/

/-- Two regions, the first smaller than 32768 bytes. -/
def twoRegions : Kernel Unit := flatKernel [(4096, 4096), (16384, 65536)]

/-- A single region of 8192 bytes at 4096. -/
def oneRegion : Kernel Unit := flatKernel [(4096, 8192)]

/-- A map with a submap: a plain region `[4096, 8192)` and a submap
`[16384, 32768)` made of the two regions `[16384, 24576)` and
`[24576, 32768)`.  Asked with depth 0 the kernel reports the submap whole, at
nesting level 0; asked with a greater depth it reports the region inside it,
at nesting level 1. -/
def nestedRegions : Kernel Unit :=
  fun _ _ address depth =>
    if address < 8192 then (⟨KERN_SUCCESS, 4096, 4096, 0⟩, ())
    else if address < 32768 then
      if depth = 0 then (⟨KERN_SUCCESS, 16384, 16384, 0⟩, ())
      else if address < 24576 then (⟨KERN_SUCCESS, 16384, 8192, 1⟩, ())
      else (⟨KERN_SUCCESS, 24576, 8192, 1⟩, ())
    else (⟨KERN_INVALID_ADDRESS, address, 0, depth⟩, ())

/-- A large region low in the address space and a page at its very top. -/
def topRegion : Kernel Unit := flatKernel [(4096, 65536), (2 ^ 64 - 4096, 4096)]

/-- What the scan of `twoRegions` from 0 for 32768 bytes returns, with the two
calls it makes. -/
def twoRegionsFound : ScanResult (Unit × List Exchange) :=
  ⟨0, 16384, 65536, ((),
    [⟨0, 1, ⟨0, 4096, 4096, 0⟩⟩, ⟨8192, 0, ⟨0, 16384, 65536, 0⟩⟩])⟩

/-- What the scan of `oneRegion` from 0 for 32768 bytes returns, with the two
calls it makes. -/
def oneRegionMissed : ScanResult (Unit × List Exchange) :=
  ⟨1, 11, 22, ((),
    [⟨0, 1, ⟨0, 4096, 8192, 0⟩⟩, ⟨12288, 0, ⟨1, 12288, 0, 0⟩⟩])⟩

/-! ## Kernels that make the scan advance -/

/-- Every region smaller than `min_size` that the kernel reports for `task`
ends after the address it was asked about and below the top of the 64-bit
address space. -/
def Advances {σ : Type} (k : Kernel σ) (task min_size : Nat) : Prop :=
  ∀ (s : σ) (a d : Nat), (k s task a d).1.kr = KERN_SUCCESS →
    (k s task a d).1.region_size < min_size →
    a < (k s task a d).1.address + (k s task a d).1.region_size ∧
      (k s task a d).1.address + (k s task a d).1.region_size < ADDRESS_SPACE

/-! ## Scanning again from the end of the region found -/

/-- A kernel that answers for `task` out of one fixed map, whatever its state:
the regions it reports are non-empty and end after the address queried, and it
enumerates them in increasing address order, that is, a query made at the end
of a region it has reported, with depth 1 or with the depth it reported for
that region, is answered with a region that starts at or after that end.
Regions found at different nesting depths may overlap. -/
structure RegionMap {σ : Type} (k : Kernel σ) (task : Nat) : Prop where
  ends_after_query : ∀ (s : σ) (a d : Nat), (k s task a d).1.kr = KERN_SUCCESS →
    a < (k s task a d).1.address + (k s task a d).1.region_size
  nonempty : ∀ (s : σ) (a d : Nat), (k s task a d).1.kr = KERN_SUCCESS →
    0 < (k s task a d).1.region_size
  in_order : ∀ (s : σ) (a d : Nat) (s' : σ) (d' : Nat),
    (k s task a d).1.kr = KERN_SUCCESS →
    (d' = 1 ∨ d' = (k s task a d).1.depth) →
    (k s' task ((k s task a d).1.address + (k s task a d).1.region_size) d').1.kr
      = KERN_SUCCESS →
    (k s task a d).1.address + (k s task a d).1.region_size ≤
      (k s' task ((k s task a d).1.address + (k s task a d).1.region_size) d').1.address

/-- Every region the kernel reports for `task` ends below the top of the
64-bit address space. -/
def EndsBelowTop {σ : Type} (k : Kernel σ) (task : Nat) : Prop :=
  ∀ (s : σ) (a d : Nat), (k s task a d).1.kr = KERN_SUCCESS →
    (k s task a d).1.address + (k s task a d).1.region_size < ADDRESS_SPACE

/-- The address `a` is the end of a region the kernel has reported for
`task`, and `d` is 1 or the depth reported for that region. -/
def ReportedEnd {σ : Type} (k : Kernel σ) (task a d : Nat) : Prop :=
  ∃ (s0 : σ) (a0 d0 : Nat), (k s0 task a0 d0).1.kr = KERN_SUCCESS ∧
    a = (k s0 task a0 d0).1.address + (k s0 task a0 d0).1.region_size ∧
    (d = 1 ∨ d = (k s0 task a0 d0).1.depth)

/-- The repeated scan of section 8 of the specification: up to `calls` calls
of `mach_find_large_region`, each after the first with
`hint = previous base + previous size`, the sum taken as the 64-bit value
that the parameter `hint_address` holds.  The result is the list of the
`(base, size)` pairs of the successful calls, in order, and the status of the
call that failed, if one did. -/
def repeated_scan {σ : Type} (fuel : Nat) (k : Kernel σ)
    (task min_size out_address out_size : Nat) : Nat → σ → Nat → List (Nat × Nat) × Option Int
  | 0, _, _ => ([], none)
  | calls + 1, s, hint =>
    match mach_find_large_region fuel k s task hint min_size out_address out_size with
    | none => ([], none)
    | some res =>
      if res.kr = KERN_SUCCESS then
        ((res.out_address, res.out_size) ::
            (repeated_scan fuel k task min_size out_address out_size calls res.kernel
              ((res.out_address + res.out_size) % ADDRESS_SPACE)).1,
          (repeated_scan fuel k task min_size out_address out_size calls res.kernel
              ((res.out_address + res.out_size) % ADDRESS_SPACE)).2)
      else ([], some res.kr)

/-! ## Lemmas on the loop -/

theorem scan_loop_succ {σ : Type} (k : Kernel σ) (task min_size out_address out_size : Nat)
    (fuel : Nat) (s : σ) (address depth : Nat) :
    scan_loop k task min_size out_address out_size (fuel + 1) s address depth =
      match scan_iteration k task min_size out_address out_size s address depth with
      | Step.ret r => some r
      | Step.next s' address' depth' =>
        scan_loop k task min_size out_address out_size fuel s' address' depth' := rfl

theorem scan_iteration_failed {σ : Type} (k : Kernel σ)
    (task min_size out_address out_size : Nat) (s : σ) (address depth : Nat)
    (h : (k s task address depth).1.kr ≠ KERN_SUCCESS) :
    scan_iteration k task min_size out_address out_size s address depth =
      Step.ret ⟨(k s task address depth).1.kr, out_address, out_size,
        (k s task address depth).2⟩ := by
  simp [scan_iteration, h]

theorem scan_iteration_found {σ : Type} (k : Kernel σ)
    (task min_size out_address out_size : Nat) (s : σ) (address depth : Nat)
    (h : (k s task address depth).1.kr = KERN_SUCCESS)
    (hsize : min_size ≤ (k s task address depth).1.region_size) :
    scan_iteration k task min_size out_address out_size s address depth =
      Step.ret ⟨KERN_SUCCESS, (k s task address depth).1.address,
        (k s task address depth).1.region_size, (k s task address depth).2⟩ := by
  simp [scan_iteration, h, hsize]

theorem scan_iteration_small {σ : Type} (k : Kernel σ)
    (task min_size out_address out_size : Nat) (s : σ) (address depth : Nat)
    (h : (k s task address depth).1.kr = KERN_SUCCESS)
    (hsize : (k s task address depth).1.region_size < min_size) :
    scan_iteration k task min_size out_address out_size s address depth =
      Step.next (k s task address depth).2
        (((k s task address depth).1.address + (k s task address depth).1.region_size)
          % ADDRESS_SPACE)
        (k s task address depth).1.depth := by
  simp [scan_iteration, h, Nat.not_le.mpr hsize]

theorem scan_loop_record_trace {σ : Type} (k : Kernel σ)
    (task min_size out_address out_size : Nat) :
    ∀ (fuel : Nat) (s : σ) (log : List Exchange) (address depth : Nat)
      (res : ScanResult (σ × List Exchange)),
      scan_loop (record k) task min_size out_address out_size fuel (s, log) address depth
        = some res →
      ∃ pre e, res.kernel.2 = log ++ (pre ++ [e]) ∧ Linked address depth (pre ++ [e]) ∧
        (∀ x ∈ pre, x.reply.kr = KERN_SUCCESS ∧ x.reply.region_size < min_size) ∧
        Outcome min_size out_address out_size e res := by
  intro fuel
  induction fuel with
  | zero => intro s log a d res h; simp [scan_loop] at h
  | succ n ih =>
    intro s log a d res h
    rw [scan_loop_succ] at h
    by_cases hkr : (k s task a d).1.kr = KERN_SUCCESS
    · by_cases hsize : min_size ≤ (k s task a d).1.region_size
      · rw [scan_iteration_found _ _ _ _ _ _ _ _ (by simpa [record] using hkr)
          (by simpa [record] using hsize)] at h
        simp only [Option.some.injEq] at h
        subst h
        refine ⟨[], ⟨a, d, (k s task a d).1⟩, ?_, ?_, ?_, ?_⟩
        · simp [record]
        · simp [Linked]
        · simp
        · right; simp [record, hkr, hsize]
      · have hlt : (k s task a d).1.region_size < min_size := Nat.lt_of_not_le hsize
        rw [scan_iteration_small _ _ _ _ _ _ _ _ (by simpa [record] using hkr)
          (by simpa [record] using hlt)] at h
        simp only [record] at h
        obtain ⟨pre, e, hlog, hlink, hpre, hout⟩ := ih _ _ _ _ _ h
        refine ⟨⟨a, d, (k s task a d).1⟩ :: pre, e, ?_, ?_, ?_, hout⟩
        · simp [hlog]
        · exact ⟨rfl, rfl, hlink⟩
        · intro x hx
          rcases List.mem_cons.mp hx with rfl | hx
          · exact ⟨hkr, hlt⟩
          · exact hpre x hx
    · rw [scan_iteration_failed _ _ _ _ _ _ _ _ (by simpa [record] using hkr)] at h
      simp only [Option.some.injEq] at h
      subst h
      refine ⟨[], ⟨a, d, (k s task a d).1⟩, ?_, ?_, ?_, ?_⟩
      · simp [record]
      · simp [Linked]
      · simp
      · left; simp [record, hkr]

theorem scan_loop_record_forget {σ : Type} (k : Kernel σ)
    (task min_size out_address out_size : Nat) :
    ∀ (fuel : Nat) (s : σ) (log : List Exchange) (address depth : Nat),
      (scan_loop (record k) task min_size out_address out_size fuel (s, log) address depth).map
          ScanResult.forget
        = scan_loop k task min_size out_address out_size fuel s address depth := by
  intro fuel
  induction fuel with
  | zero => intro s log a d; rfl
  | succ n ih =>
    intro s log a d
    rw [scan_loop_succ, scan_loop_succ]
    by_cases hkr : (k s task a d).1.kr = KERN_SUCCESS
    · by_cases hsize : min_size ≤ (k s task a d).1.region_size
      · rw [scan_iteration_found _ _ _ _ _ _ _ _ (by simpa [record] using hkr)
          (by simpa [record] using hsize), scan_iteration_found _ _ _ _ _ _ _ _ hkr hsize]
        simp [ScanResult.forget, record]
      · have hlt : (k s task a d).1.region_size < min_size := Nat.lt_of_not_le hsize
        rw [scan_iteration_small _ _ _ _ _ _ _ _ (by simpa [record] using hkr)
          (by simpa [record] using hlt), scan_iteration_small _ _ _ _ _ _ _ _ hkr hlt]
        simp only [record]
        exact ih _ _ _ _
    · rw [scan_iteration_failed _ _ _ _ _ _ _ _ (by simpa [record] using hkr),
        scan_iteration_failed _ _ _ _ _ _ _ _ hkr]
      simp [ScanResult.forget, record]


theorem linked_chain :
    ∀ (log : List Exchange) (a d : Nat), Linked a d log →
      List.Chain' (fun x y => y.address =
          (x.reply.address + x.reply.region_size) % ADDRESS_SPACE ∧ y.depth = x.reply.depth)
        log := by
  intro log
  induction log with
  | nil => intro a d _; exact List.chain'_nil
  | cons e rest ih =>
    intro a d h
    obtain ⟨_, _, hrest⟩ := h
    rw [List.chain'_cons']
    refine ⟨?_, ih _ _ hrest⟩
    intro y hy
    cases rest with
    | nil => simp at hy
    | cons z zs =>
      simp only [List.head?_cons, Option.mem_def, Option.some.injEq] at hy
      subst hy
      exact ⟨hrest.1, hrest.2.1⟩

theorem linked_head (log : List Exchange) (a d : Nat) (h : Linked a d log) (hne : log ≠ []) :
    log.head?.map Exchange.address = some a ∧ log.head?.map Exchange.depth = some d := by
  cases log with
  | nil => exact absurd rfl hne
  | cons e rest => exact ⟨by simp [h.1], by simp [h.2.1]⟩

theorem find_record_trace {σ : Type} (k : Kernel σ) (fuel : Nat) (s : σ)
    (task hint_address min_size out_address out_size : Nat)
    (res : ScanResult (σ × List Exchange))
    (h : mach_find_large_region fuel (record k) (s, []) task hint_address min_size
      out_address out_size = some res) :
    ∃ pre e, res.kernel.2 = pre ++ [e] ∧ Linked hint_address 1 (pre ++ [e]) ∧
      (∀ x ∈ pre, x.reply.kr = KERN_SUCCESS ∧ x.reply.region_size < min_size) ∧
      Outcome min_size out_address out_size e res := by
  obtain ⟨pre, e, hlog, hrest⟩ := scan_loop_record_trace k task min_size out_address out_size
    fuel s [] hint_address 1 res h
  exact ⟨pre, e, by simpa using hlog, hrest⟩

theorem find_lift_record {σ : Type} (k : Kernel σ) (fuel : Nat) (s : σ)
    (task hint_address min_size out_address out_size : Nat) (res : ScanResult σ)
    (h : mach_find_large_region fuel k s task hint_address min_size out_address out_size
      = some res) :
    ∃ res', mach_find_large_region fuel (record k) (s, []) task hint_address min_size
      out_address out_size = some res' ∧ res'.forget = res := by
  have hf := scan_loop_record_forget k task min_size out_address out_size fuel s []
    hint_address 1
  unfold mach_find_large_region at h ⊢
  rw [h] at hf
  cases hrec : scan_loop (record k) task min_size out_address out_size fuel (s, [])
      hint_address 1 with
  | none => rw [hrec] at hf; simp at hf
  | some r =>
    rw [hrec] at hf
    simp only [Option.map_some', Option.some.injEq] at hf
    exact ⟨r, rfl, hf⟩

/-! ## The claims -/

/-- C1: whenever `mach_find_large_region` returns `KERN_SUCCESS`, the size it
has stored in `*out_size` is at least `min_size`. -/
theorem found_size_at_least_min {σ : Type} (k : Kernel σ) (fuel : Nat) (s : σ)
    (task hint_address min_size out_address out_size : Nat) (res : ScanResult σ)
    (h : mach_find_large_region fuel k s task hint_address min_size out_address out_size
      = some res)
    (hs : res.kr = KERN_SUCCESS) : min_size ≤ res.out_size := by
  obtain ⟨res', hrun, hforget⟩ := find_lift_record k fuel s task hint_address min_size
    out_address out_size res h
  obtain ⟨pre, e, _, _, _, hout⟩ := find_record_trace k fuel s task hint_address min_size
    out_address out_size res' hrun
  subst hforget
  simp only [ScanResult.forget] at hs ⊢
  rcases hout with ⟨hfail, hkr, _⟩ | ⟨_, hmin, _, _, hsz⟩
  · exact absurd (hkr ▸ hs) hfail
  · rw [hsz]; exact hmin

theorem found_size_at_least_min_witness :
    mach_find_large_region 5 twoRegions () 7 0 32768 11 22
        = some twoRegionsFound.forget ∧
      twoRegionsFound.forget.kr = KERN_SUCCESS ∧
      32768 ≤ twoRegionsFound.forget.out_size :=
  ⟨by decide, by decide,
    found_size_at_least_min twoRegions 5 () 7 0 32768 11 22 twoRegionsFound.forget
      (by decide) (by decide)⟩


/-- C2: when `mach_find_large_region` succeeds, the calls it has made are a
walk that starts at `hint_address`, each later call being made at the base
plus the size (the 64-bit sum) reported by the call before it; every call but
the last reported a region smaller than `min_size`, and the pair stored in the
outputs is the base and size reported by the last call, which is at least
`min_size` bytes long. -/
theorem returns_first_qualifying_region {σ : Type} (k : Kernel σ) (fuel : Nat) (s : σ)
    (task hint_address min_size out_address out_size : Nat)
    (res : ScanResult (σ × List Exchange))
    (h : mach_find_large_region fuel (record k) (s, []) task hint_address min_size
      out_address out_size = some res)
    (hs : res.kr = KERN_SUCCESS) :
    ∃ pre e, res.kernel.2 = pre ++ [e] ∧
      res.kernel.2.head?.map Exchange.address = some hint_address ∧
      List.Chain' (fun x y => y.address =
        (x.reply.address + x.reply.region_size) % ADDRESS_SPACE) res.kernel.2 ∧
      (∀ x ∈ pre, x.reply.kr = KERN_SUCCESS ∧ x.reply.region_size < min_size) ∧
      e.reply.kr = KERN_SUCCESS ∧ min_size ≤ e.reply.region_size ∧
      res.out_address = e.reply.address ∧ res.out_size = e.reply.region_size := by
  obtain ⟨pre, e, hlog, hlink, hpre, hout⟩ := find_record_trace k fuel s task hint_address
    min_size out_address out_size res h
  refine ⟨pre, e, hlog, ?_, ?_, hpre, ?_⟩
  · rw [hlog]; exact (linked_head _ _ _ hlink (by simp)).1
  · rw [hlog]; exact (linked_chain _ _ _ hlink).imp (fun _ _ h => h.1)
  · rcases hout with ⟨hfail, hkr, _⟩ | ⟨hok, hmin, _, haddr, hsz⟩
    · exact absurd (hkr ▸ hs) hfail
    · exact ⟨hok, hmin, haddr, hsz⟩

theorem returns_first_qualifying_region_witness :
    mach_find_large_region 5 (record twoRegions) ((), []) 7 0 32768 11 22
        = some twoRegionsFound ∧
      twoRegionsFound.kr = KERN_SUCCESS ∧
      ∃ pre e, twoRegionsFound.kernel.2 = pre ++ [e] ∧
        twoRegionsFound.kernel.2.head?.map Exchange.address = some 0 ∧
        List.Chain' (fun x y => y.address =
          (x.reply.address + x.reply.region_size) % ADDRESS_SPACE) twoRegionsFound.kernel.2 ∧
        (∀ x ∈ pre, x.reply.kr = KERN_SUCCESS ∧ x.reply.region_size < 32768) ∧
        e.reply.kr = KERN_SUCCESS ∧ 32768 ≤ e.reply.region_size ∧
        twoRegionsFound.out_address = e.reply.address ∧
        twoRegionsFound.out_size = e.reply.region_size :=
  ⟨by decide, by decide,
    returns_first_qualifying_region twoRegions 5 () 7 0 32768 11 22 twoRegionsFound
      (by decide) (by decide)⟩

/-- C3: the failed call is always the last call of a scan: every call before
the last succeeded and reported a region smaller than `min_size`.  The scan
returns a failure exactly when one of its calls failed; it then returns the
status of that call unchanged, so that the typed error built from it is
`NoRegionFound` for the end-of-space status and `Unknown` of the same code
otherwise, and it stores no region.  When the last call succeeded the scan
succeeds with a region of at least `min_size` bytes. -/
theorem failure_is_first_failed_query {σ : Type} (k : Kernel σ) (fuel : Nat) (s : σ)
    (task hint_address min_size out_address out_size : Nat) (endOfSpace : Int)
    (res : ScanResult (σ × List Exchange))
    (h : mach_find_large_region fuel (record k) (s, []) task hint_address min_size
      out_address out_size = some res) :
    ∃ pre e, res.kernel.2 = pre ++ [e] ∧
      (∀ x ∈ pre, x.reply.kr = KERN_SUCCESS ∧ x.reply.region_size < min_size) ∧
      (res.kr ≠ KERN_SUCCESS ↔ ∃ x ∈ res.kernel.2, x.reply.kr ≠ KERN_SUCCESS) ∧
      (res.kr ≠ KERN_SUCCESS ↔ e.reply.kr ≠ KERN_SUCCESS) ∧
      (e.reply.kr ≠ KERN_SUCCESS →
        res.kr = e.reply.kr ∧ res.out_address = out_address ∧ res.out_size = out_size ∧
        (e.reply.kr = endOfSpace →
          ScanError.ofStatus endOfSpace res.kr = ScanError.NoRegionFound) ∧
        (e.reply.kr ≠ endOfSpace →
          ScanError.ofStatus endOfSpace res.kr = ScanError.Unknown e.reply.kr)) ∧
      (e.reply.kr = KERN_SUCCESS →
        res.kr = KERN_SUCCESS ∧ min_size ≤ e.reply.region_size) ∧
      (∀ (n : Nat) (s' : σ) (a d : Nat), (k s' task a d).1.kr ≠ KERN_SUCCESS →
        scan_loop k task min_size out_address out_size (n + 1) s' a d =
          some ⟨(k s' task a d).1.kr, out_address, out_size, (k s' task a d).2⟩) := by
  obtain ⟨pre, e, hlog, _, hpre, hout⟩ := find_record_trace k fuel s task hint_address
    min_size out_address out_size res h
  have hiff : res.kr ≠ KERN_SUCCESS ↔ e.reply.kr ≠ KERN_SUCCESS := by
    rcases hout with ⟨hfail, hkr, _⟩ | ⟨hok, _, hkr, _⟩
    · rw [hkr]
    · simp [hok, hkr]
  refine ⟨pre, e, hlog, hpre, ?_, hiff, ?_, ?_, ?_⟩
  · rw [hiff, hlog]
    constructor
    · intro hfail
      exact ⟨e, by simp, hfail⟩
    · rintro ⟨x, hx, hxfail⟩
      rcases List.mem_append.mp hx with hx | hx
      · exact absurd (hpre x hx).1 hxfail
      · simp only [List.mem_singleton] at hx
        exact hx ▸ hxfail
  · intro hfail
    rcases hout with ⟨_, hkr, haddr, hsz⟩ | ⟨hok, _⟩
    · refine ⟨hkr, haddr, hsz, ?_, ?_⟩
      · intro heos; simp [ScanError.ofStatus, hkr, heos]
      · intro heos; simp [ScanError.ofStatus, hkr, heos]
    · exact absurd hok hfail
  · intro hok
    rcases hout with ⟨hfail, _⟩ | ⟨_, hmin, hkr, _⟩
    · exact absurd hok hfail
    · exact ⟨hkr, hmin⟩
  · intro n s' a d hfail
    rw [scan_loop_succ, scan_iteration_failed _ _ _ _ _ _ _ _ hfail]

theorem failure_is_first_failed_query_witness :
    mach_find_large_region 5 (record oneRegion) ((), []) 7 0 32768 11 22
        = some oneRegionMissed ∧
      ∃ pre e, oneRegionMissed.kernel.2 = pre ++ [e] ∧
        (∀ x ∈ pre, x.reply.kr = KERN_SUCCESS ∧ x.reply.region_size < 32768) ∧
        (oneRegionMissed.kr ≠ KERN_SUCCESS ↔
          ∃ x ∈ oneRegionMissed.kernel.2, x.reply.kr ≠ KERN_SUCCESS) ∧
        (oneRegionMissed.kr ≠ KERN_SUCCESS ↔ e.reply.kr ≠ KERN_SUCCESS) ∧
        (e.reply.kr ≠ KERN_SUCCESS →
          oneRegionMissed.kr = e.reply.kr ∧ oneRegionMissed.out_address = 11 ∧
          oneRegionMissed.out_size = 22 ∧
          (e.reply.kr = KERN_INVALID_ADDRESS →
            ScanError.ofStatus KERN_INVALID_ADDRESS oneRegionMissed.kr
              = ScanError.NoRegionFound) ∧
          (e.reply.kr ≠ KERN_INVALID_ADDRESS →
            ScanError.ofStatus KERN_INVALID_ADDRESS oneRegionMissed.kr
              = ScanError.Unknown e.reply.kr)) ∧
        (e.reply.kr = KERN_SUCCESS →
          oneRegionMissed.kr = KERN_SUCCESS ∧ 32768 ≤ e.reply.region_size) ∧
        (∀ (n : Nat) (s' : Unit) (a d : Nat), (oneRegion s' 7 a d).1.kr ≠ KERN_SUCCESS →
          scan_loop oneRegion 7 32768 11 22 (n + 1) s' a d =
            some ⟨(oneRegion s' 7 a d).1.kr, 11, 22, (oneRegion s' 7 a d).2⟩) :=
  ⟨by decide,
    failure_is_first_failed_query oneRegion 5 () 7 0 32768 11 22 KERN_INVALID_ADDRESS
      oneRegionMissed (by decide)⟩

/-- C10: when `mach_find_large_region` returns a status other than
`KERN_SUCCESS`, `*out_address` and `*out_size` hold what they held on entry;
when it returns `KERN_SUCCESS` both hold what the last call to the kernel
reported, the base and the size of one and the same reply. -/
theorem outputs_written_only_on_success {σ : Type} (k : Kernel σ) (fuel : Nat) (s : σ)
    (task hint_address min_size out_address out_size : Nat)
    (res : ScanResult (σ × List Exchange))
    (h : mach_find_large_region fuel (record k) (s, []) task hint_address min_size
      out_address out_size = some res) :
    (res.kr ≠ KERN_SUCCESS → res.out_address = out_address ∧ res.out_size = out_size) ∧
    (res.kr = KERN_SUCCESS → ∃ e, res.kernel.2.getLast? = some e ∧
      e.reply.kr = KERN_SUCCESS ∧
      res.out_address = e.reply.address ∧ res.out_size = e.reply.region_size) := by
  obtain ⟨pre, e, hlog, _, _, hout⟩ := find_record_trace k fuel s task hint_address
    min_size out_address out_size res h
  constructor
  · intro hfail
    rcases hout with ⟨_, _, haddr, hsz⟩ | ⟨_, _, hkr, _⟩
    · exact ⟨haddr, hsz⟩
    · exact absurd hkr hfail
  · intro hs
    rcases hout with ⟨hfail, hkr, _⟩ | ⟨hok, _, _, haddr, hsz⟩
    · exact absurd (hkr ▸ hs) hfail
    · exact ⟨e, by simp [hlog], hok, haddr, hsz⟩

theorem outputs_written_only_on_success_witness :
    mach_find_large_region 5 (record oneRegion) ((), []) 7 0 32768 11 22
        = some oneRegionMissed ∧
      (oneRegionMissed.kr ≠ KERN_SUCCESS →
        oneRegionMissed.out_address = 11 ∧ oneRegionMissed.out_size = 22) ∧
      (oneRegionMissed.kr = KERN_SUCCESS → ∃ e, oneRegionMissed.kernel.2.getLast? = some e ∧
        e.reply.kr = KERN_SUCCESS ∧
        oneRegionMissed.out_address = e.reply.address ∧
        oneRegionMissed.out_size = e.reply.region_size) :=
  ⟨by decide,
    outputs_written_only_on_success oneRegion 5 () 7 0 32768 11 22 oneRegionMissed
      (by decide)⟩


theorem oneRegion_reply (s : Unit) (task a d : Nat) :
    (oneRegion s task a d).1 =
      if a < 12288 then ⟨KERN_SUCCESS, 4096, 8192, 0⟩ else ⟨KERN_INVALID_ADDRESS, a, 0, d⟩ := by
  by_cases h : a < 12288 <;> simp [oneRegion, flatKernel, regionAt, h]

theorem oneRegion_advances (task min_size : Nat) : Advances oneRegion task min_size := by
  intro s a d hkr _
  rw [oneRegion_reply] at hkr ⊢
  by_cases h : a < 12288
  · rw [if_pos h]
    simp only [ADDRESS_SPACE]
    omega
  · simp [h, KERN_INVALID_ADDRESS, KERN_SUCCESS] at hkr

theorem scan_loop_returns {σ : Type} (k : Kernel σ)
    (task min_size out_address out_size : Nat) (hadv : Advances k task min_size) :
    ∀ (fuel : Nat) (s : σ) (a d : Nat), ADDRESS_SPACE - a < fuel →
      ∃ res, scan_loop k task min_size out_address out_size fuel s a d = some res := by
  intro fuel
  induction fuel with
  | zero => intro s a d h; exact absurd h (Nat.not_lt_zero _)
  | succ n ih =>
    intro s a d hfuel
    rw [scan_loop_succ]
    by_cases hkr : (k s task a d).1.kr = KERN_SUCCESS
    · by_cases hsize : min_size ≤ (k s task a d).1.region_size
      · rw [scan_iteration_found _ _ _ _ _ _ _ _ hkr hsize]
        exact ⟨_, rfl⟩
      · have hlt : (k s task a d).1.region_size < min_size := Nat.lt_of_not_le hsize
        rw [scan_iteration_small _ _ _ _ _ _ _ _ hkr hlt]
        obtain ⟨h1, h2⟩ := hadv s a d hkr hlt
        rw [Nat.mod_eq_of_lt h2]
        apply ih
        omega
    · rw [scan_iteration_failed _ _ _ _ _ _ _ _ hkr]
      exact ⟨_, rfl⟩

theorem scan_iteration_next {σ : Type} (k : Kernel σ)
    (task min_size out_address out_size : Nat) (s : σ) (a d : Nat) (s' : σ) (a' d' : Nat)
    (h : scan_iteration k task min_size out_address out_size s a d = Step.next s' a' d') :
    (k s task a d).1.kr = KERN_SUCCESS ∧ (k s task a d).1.region_size < min_size ∧
      s' = (k s task a d).2 ∧
      a' = ((k s task a d).1.address + (k s task a d).1.region_size) % ADDRESS_SPACE ∧
      d' = (k s task a d).1.depth := by
  by_cases hkr : (k s task a d).1.kr = KERN_SUCCESS
  · by_cases hsize : min_size ≤ (k s task a d).1.region_size
    · rw [scan_iteration_found _ _ _ _ _ _ _ _ hkr hsize] at h
      cases h
    · have hlt : (k s task a d).1.region_size < min_size := Nat.lt_of_not_le hsize
      rw [scan_iteration_small _ _ _ _ _ _ _ _ hkr hlt] at h
      injection h with h1 h2 h3
      exact ⟨hkr, hlt, h1.symm, h2.symm, h3.symm⟩
  · rw [scan_iteration_failed _ _ _ _ _ _ _ _ hkr] at h
    cases h

theorem emptyRegion_never_returns :
    ∀ (fuel : Nat) (a d : Nat), a < ADDRESS_SPACE →
      scan_loop emptyRegionKernel 7 1 11 22 fuel () a d = none := by
  intro fuel
  induction fuel with
  | zero => intro a d _; rfl
  | succ n ih =>
    intro a d ha
    rw [scan_loop_succ, scan_iteration_small _ _ _ _ _ _ _ _ (by rfl)
      (by simp [emptyRegionKernel])]
    simp only [emptyRegionKernel, Nat.add_zero, Nat.mod_eq_of_lt ha]
    exact ih a d ha

/-- C7, as the code has it: a pass of the loop that does not return leaves
in `address` the reported base plus the reported size modulo `2 ^ 64`; that is
strictly more than the address the pass queried with whenever the reported
region ends after that address and below `2 ^ 64`.  Over a kernel whose small
regions all end so, the scan from `hint_address` returns within
`2 ^ 64 - hint_address + 1` passes. -/
theorem next_cursor_is_wrapped_sum {σ : Type} (k : Kernel σ)
    (task min_size out_address out_size : Nat) :
    (∀ (s : σ) (a d : Nat) (s' : σ) (a' d' : Nat),
      scan_iteration k task min_size out_address out_size s a d = Step.next s' a' d' →
        a' = ((k s task a d).1.address + (k s task a d).1.region_size) % ADDRESS_SPACE ∧
        (a < (k s task a d).1.address + (k s task a d).1.region_size →
          (k s task a d).1.address + (k s task a d).1.region_size < ADDRESS_SPACE →
          a < a')) ∧
    (Advances k task min_size →
      ∀ (fuel : Nat) (s : σ) (hint_address : Nat), ADDRESS_SPACE - hint_address < fuel →
        ∃ res, mach_find_large_region fuel k s task hint_address min_size out_address out_size
          = some res) := by
  constructor
  · intro s a d s' a' d' h
    obtain ⟨_, _, _, ha', _⟩ := scan_iteration_next k task min_size out_address out_size
      s a d s' a' d' h
    refine ⟨ha', ?_⟩
    intro h1 h2
    rw [ha', Nat.mod_eq_of_lt h2]
    exact h1
  · intro hadv fuel s hint hfuel
    exact scan_loop_returns k task min_size out_address out_size hadv fuel s hint 1 hfuel

theorem next_cursor_is_wrapped_sum_witness :
    (scan_iteration topRegion 7 8192 11 22 () (2 ^ 64 - 4096) 1 = Step.next () 0 0 ∧
      0 = ((topRegion () 7 (2 ^ 64 - 4096) 1).1.address
        + (topRegion () 7 (2 ^ 64 - 4096) 1).1.region_size) % ADDRESS_SPACE) ∧
    (scan_iteration twoRegions 7 32768 11 22 () 0 1 = Step.next () 8192 0 ∧
      0 < (twoRegions () 7 0 1).1.address + (twoRegions () 7 0 1).1.region_size ∧
      (twoRegions () 7 0 1).1.address + (twoRegions () 7 0 1).1.region_size < ADDRESS_SPACE ∧
      0 < 8192) ∧
    (Advances oneRegion 7 32768 ∧
      ∀ (fuel : Nat) (s : Unit) (hint_address : Nat), ADDRESS_SPACE - hint_address < fuel →
        ∃ res, mach_find_large_region fuel oneRegion s 7 hint_address 32768 11 22
          = some res) :=
  ⟨⟨by decide,
      ((next_cursor_is_wrapped_sum topRegion 7 8192 11 22).1 () (2 ^ 64 - 4096) 1 () 0 0
        (by decide)).1⟩,
    ⟨by decide, by decide, by decide,
      ((next_cursor_is_wrapped_sum twoRegions 7 32768 11 22).1 () 0 1 () 8192 0
        (by decide)).2 (by decide) (by decide)⟩,
    ⟨oneRegion_advances 7 32768,
      (next_cursor_is_wrapped_sum oneRegion 7 32768 11 22).2 (oneRegion_advances 7 32768)⟩⟩

/-- C7 fails as stated: asked about address 5, a kernel that reports an empty
region at 5 leaves the loop with `address = 5` again, not with a greater one,
and the scan for one byte never returns. -/
theorem empty_region_stalls_the_cursor :
    scan_iteration emptyRegionKernel 7 1 11 22 () 5 1 = Step.next () 5 1 ∧ ¬ (5 < 5) ∧
      ∀ fuel : Nat, mach_find_large_region fuel emptyRegionKernel () 7 5 1 11 22 = none :=
  ⟨rfl, by decide, fun fuel =>
    emptyRegion_never_returns fuel 5 1 (by simp [ADDRESS_SPACE])⟩


/-- C4, as the code has it: with `min_size = 0`, when the first call to the
kernel, made at `hint_address` with depth 1, succeeds, the scan returns
`KERN_SUCCESS` with the base and size reported by that call and makes no other
call; the base returned is at or after `hint_address` exactly when the base
the kernel reported is. -/
theorem zero_min_size_returns_first_reply {σ : Type} (k : Kernel σ) (fuel : Nat) (s : σ)
    (task hint_address out_address out_size : Nat)
    (hk : (k s task hint_address 1).1.kr = KERN_SUCCESS) :
    ∃ res, mach_find_large_region (fuel + 1) (record k) (s, []) task hint_address 0
        out_address out_size = some res ∧
      res.kr = KERN_SUCCESS ∧
      res.kernel.2 = [⟨hint_address, 1, (k s task hint_address 1).1⟩] ∧
      res.out_address = (k s task hint_address 1).1.address ∧
      res.out_size = (k s task hint_address 1).1.region_size ∧
      (hint_address ≤ res.out_address ↔ hint_address ≤ (k s task hint_address 1).1.address) := by
  refine ⟨⟨KERN_SUCCESS, (k s task hint_address 1).1.address,
    (k s task hint_address 1).1.region_size,
    ((k s task hint_address 1).2, [⟨hint_address, 1, (k s task hint_address 1).1⟩])⟩,
    ?_, rfl, rfl, rfl, rfl, Iff.rfl⟩
  unfold mach_find_large_region
  rw [scan_loop_succ, scan_iteration_found _ _ _ _ _ _ _ _ (by simpa [record] using hk)
    (Nat.zero_le _)]
  simp [record]

theorem zero_min_size_returns_first_reply_witness :
    (oneRegion () 7 0 1).1.kr = KERN_SUCCESS ∧
    ∃ res, mach_find_large_region (4 + 1) (record oneRegion) ((), []) 7 0 0 11 22 = some res ∧
      res.kr = KERN_SUCCESS ∧
      res.kernel.2 = [⟨0, 1, (oneRegion () 7 0 1).1⟩] ∧
      res.out_address = (oneRegion () 7 0 1).1.address ∧
      res.out_size = (oneRegion () 7 0 1).1.region_size ∧
      (0 ≤ res.out_address ↔ 0 ≤ (oneRegion () 7 0 1).1.address) :=
  ⟨by decide, zero_min_size_returns_first_reply oneRegion 4 () 7 0 11 22 (by decide)⟩

/-- C4 fails as stated: with the hint 6000 inside the region that starts at
4096, the scan for `min_size = 0` succeeds with base 4096, below the hint. -/
theorem hint_inside_region_returns_lower_base :
    mach_find_large_region 5 oneRegion () 7 6000 0 11 22 = some ⟨KERN_SUCCESS, 4096, 8192, ()⟩ ∧
      ¬ (6000 ≤ 4096) :=
  ⟨by decide, by decide⟩

/-- C5, at the failing input: handed the 64-bit length `2 ^ 32 + 4`,
`mach_write_memory` reports success after handing the kernel the count 4, so
that a kernel which copies what it is handed leaves the fifth byte of the
range as it was; `mach_read_memory` hands the same length over whole. -/
theorem write_of_4GiB_plus_4_hands_over_4 :
    mach_write_memory (recordWrite acceptingWrite) ((), []) 7 65536 (2 ^ 32 + 4) ()
        = (KERN_SUCCESS, ((), [4])) ∧
      2 ^ 32 + 4 < ADDRESS_SPACE ∧ (4 : Nat) ≠ 2 ^ 32 + 4 ∧
      (mach_write_memory copyingWrite (fun _ => 0) 7 65536 (2 ^ 32 + 4) (fun _ => 171)).1
        = KERN_SUCCESS ∧
      (mach_write_memory copyingWrite (fun _ => 0) 7 65536 (2 ^ 32 + 4) (fun _ => 171)).2
        65539 = 171 ∧
      (mach_write_memory copyingWrite (fun _ => 0) 7 65536 (2 ^ 32 + 4) (fun _ => 171)).2
        65540 = 0 ∧
      mach_read_memory sizeLoggingRead [] 7 65536 (2 ^ 32 + 4) ()
        = (KERN_SUCCESS, [2 ^ 32 + 4]) :=
  ⟨by decide, by decide, by decide, by decide, by decide, by decide, by decide⟩

/-- C6, as the code has it: there is no overflow guard.  When a call reports
a region smaller than `min_size` whose base plus size reaches `2 ^ 64`, the
pass does not return: the loop goes on from the address base plus size minus
`2 ^ 64`, which lies below the reported base. -/
theorem cursor_wraps_on_overflow {σ : Type} (k : Kernel σ) (fuel : Nat) (s : σ)
    (task min_size out_address out_size address depth : Nat)
    (hk : (k s task address depth).1.kr = KERN_SUCCESS)
    (hsmall : (k s task address depth).1.region_size < min_size)
    (hbase : (k s task address depth).1.address < ADDRESS_SPACE)
    (hsize : (k s task address depth).1.region_size < ADDRESS_SPACE)
    (hover : ADDRESS_SPACE ≤
      (k s task address depth).1.address + (k s task address depth).1.region_size) :
    scan_loop k task min_size out_address out_size (fuel + 1) s address depth =
        scan_loop k task min_size out_address out_size fuel (k s task address depth).2
          ((k s task address depth).1.address + (k s task address depth).1.region_size
            - ADDRESS_SPACE)
          (k s task address depth).1.depth ∧
      (k s task address depth).1.address + (k s task address depth).1.region_size
          - ADDRESS_SPACE < (k s task address depth).1.address := by
  constructor
  · rw [scan_loop_succ, scan_iteration_small _ _ _ _ _ _ _ _ hk hsmall]
    have hmod : ((k s task address depth).1.address + (k s task address depth).1.region_size)
        % ADDRESS_SPACE = (k s task address depth).1.address
          + (k s task address depth).1.region_size - ADDRESS_SPACE := by
      rw [Nat.mod_eq_sub_mod hover]
      exact Nat.mod_eq_of_lt (by omega)
    rw [hmod]
  · omega

theorem cursor_wraps_on_overflow_witness :
    (topRegion () 7 (2 ^ 64 - 4096) 1).1.kr = KERN_SUCCESS ∧
    (topRegion () 7 (2 ^ 64 - 4096) 1).1.region_size < 8192 ∧
    (topRegion () 7 (2 ^ 64 - 4096) 1).1.address < ADDRESS_SPACE ∧
    (topRegion () 7 (2 ^ 64 - 4096) 1).1.region_size < ADDRESS_SPACE ∧
    ADDRESS_SPACE ≤ (topRegion () 7 (2 ^ 64 - 4096) 1).1.address
      + (topRegion () 7 (2 ^ 64 - 4096) 1).1.region_size ∧
    (scan_loop topRegion 7 8192 11 22 (4 + 1) () (2 ^ 64 - 4096) 1 =
        scan_loop topRegion 7 8192 11 22 4 (topRegion () 7 (2 ^ 64 - 4096) 1).2
          ((topRegion () 7 (2 ^ 64 - 4096) 1).1.address
            + (topRegion () 7 (2 ^ 64 - 4096) 1).1.region_size - ADDRESS_SPACE)
          (topRegion () 7 (2 ^ 64 - 4096) 1).1.depth ∧
      (topRegion () 7 (2 ^ 64 - 4096) 1).1.address
          + (topRegion () 7 (2 ^ 64 - 4096) 1).1.region_size - ADDRESS_SPACE
        < (topRegion () 7 (2 ^ 64 - 4096) 1).1.address) :=
  ⟨by decide, by decide, by decide, by decide, by decide,
    cursor_wraps_on_overflow topRegion 4 () 7 8192 11 22 (2 ^ 64 - 4096) 1
      (by decide) (by decide) (by decide) (by decide) (by decide)⟩

/-- C6 fails as stated: the page at the top of the address space is smaller
than the 8192 bytes asked for and ends at `2 ^ 64`; the scan does not fail
there, it queries again at address 0 and returns the region at 4096. -/
theorem scan_past_top_region_restarts_at_zero :
    mach_find_large_region 5 (record topRegion) ((), []) 7 (2 ^ 64 - 4096) 8192 11 22 =
        some ⟨KERN_SUCCESS, 4096, 65536, ((),
          [⟨2 ^ 64 - 4096, 1, ⟨KERN_SUCCESS, 2 ^ 64 - 4096, 4096, 0⟩⟩,
           ⟨0, 0, ⟨KERN_SUCCESS, 4096, 65536, 0⟩⟩])⟩ ∧
      (2 ^ 64 - 4096) + 4096 = ADDRESS_SPACE :=
  ⟨by decide, by decide⟩

/-- C9, as the code has it: the first call of a scan is made with depth 1,
and each later call with the depth that the call before it left in the
variable `depth`. -/
theorem depth_follows_replies {σ : Type} (k : Kernel σ) (fuel : Nat) (s : σ)
    (task hint_address min_size out_address out_size : Nat)
    (res : ScanResult (σ × List Exchange))
    (h : mach_find_large_region fuel (record k) (s, []) task hint_address min_size
      out_address out_size = some res) :
    res.kernel.2.head?.map Exchange.depth = some 1 ∧
      List.Chain' (fun x y => y.depth = x.reply.depth) res.kernel.2 := by
  obtain ⟨pre, e, hlog, hlink, _, _⟩ := find_record_trace k fuel s task hint_address
    min_size out_address out_size res h
  rw [hlog]
  exact ⟨(linked_head _ _ _ hlink (by simp)).2,
    (linked_chain _ _ _ hlink).imp (fun _ _ h => h.2)⟩

theorem depth_follows_replies_witness :
    mach_find_large_region 5 (record twoRegions) ((), []) 7 0 32768 11 22
        = some twoRegionsFound ∧
      twoRegionsFound.kernel.2.head?.map Exchange.depth = some 1 ∧
      List.Chain' (fun x y => y.depth = x.reply.depth) twoRegionsFound.kernel.2 :=
  ⟨by decide,
    depth_follows_replies twoRegions 5 () 7 0 32768 11 22 twoRegionsFound (by decide)⟩

/-- C9 fails as stated: the first region of `twoRegions` is reported at
nesting level 0, and the second call of the scan is made with depth 0. -/
theorem second_query_made_at_depth_zero :
    (mach_find_large_region 5 (record twoRegions) ((), []) 7 0 32768 11 22).map
        (fun r => r.kernel.2.map Exchange.depth) = some [1, 0] ∧
      ¬ (∀ d ∈ [1, 0], d = 1) :=
  ⟨by decide, by decide⟩


theorem regionMap_advances {σ : Type} (k : Kernel σ) (task min_size : Nat)
    (hmap : RegionMap k task) (htop : EndsBelowTop k task) : Advances k task min_size :=
  fun s a d hkr _ => ⟨hmap.ends_after_query s a d hkr, htop s a d hkr⟩

theorem scan_loop_found_reply {σ : Type} (k : Kernel σ)
    (task min_size out_address out_size : Nat) (hmap : RegionMap k task)
    (htop : EndsBelowTop k task) :
    ∀ (fuel : Nat) (s : σ) (a d : Nat) (res : ScanResult σ),
      scan_loop k task min_size out_address out_size fuel s a d = some res →
      res.kr = KERN_SUCCESS →
      ∃ (s' : σ) (a' d' : Nat), a ≤ a' ∧ (k s' task a' d').1.kr = KERN_SUCCESS ∧
        (k s' task a' d').1.address = res.out_address ∧
        (k s' task a' d').1.region_size = res.out_size := by
  intro fuel
  induction fuel with
  | zero => intro s a d res h; simp [scan_loop] at h
  | succ n ih =>
    intro s a d res h hs
    rw [scan_loop_succ] at h
    by_cases hkr : (k s task a d).1.kr = KERN_SUCCESS
    · by_cases hsize : min_size ≤ (k s task a d).1.region_size
      · rw [scan_iteration_found _ _ _ _ _ _ _ _ hkr hsize] at h
        simp only [Option.some.injEq] at h
        subst h
        exact ⟨s, a, d, Nat.le_refl _, hkr, rfl, rfl⟩
      · have hlt : (k s task a d).1.region_size < min_size := Nat.lt_of_not_le hsize
        rw [scan_iteration_small _ _ _ _ _ _ _ _ hkr hlt] at h
        rw [Nat.mod_eq_of_lt (htop s a d hkr)] at h
        obtain ⟨s', a', d', hle, hrest⟩ := ih _ _ _ _ h hs
        have := hmap.ends_after_query s a d hkr
        exact ⟨s', a', d', by omega, hrest⟩
    · rw [scan_iteration_failed _ _ _ _ _ _ _ _ hkr] at h
      simp only [Option.some.injEq] at h
      subst h
      exact absurd hs hkr

theorem scan_loop_from_reported_end {σ : Type} (k : Kernel σ)
    (task min_size out_address out_size : Nat) (hmap : RegionMap k task)
    (htop : EndsBelowTop k task) :
    ∀ (fuel : Nat) (s : σ) (a d : Nat) (res : ScanResult σ), ReportedEnd k task a d →
      scan_loop k task min_size out_address out_size fuel s a d = some res →
      res.kr = KERN_SUCCESS → a ≤ res.out_address := by
  intro fuel
  induction fuel with
  | zero => intro s a d res _ h; simp [scan_loop] at h
  | succ n ih =>
    intro s a d res hend h hs
    rw [scan_loop_succ] at h
    by_cases hkr : (k s task a d).1.kr = KERN_SUCCESS
    · have hbase : a ≤ (k s task a d).1.address := by
        obtain ⟨s0, a0, d0, hk0, ha, hd⟩ := hend
        subst ha
        exact hmap.in_order s0 a0 d0 s d hk0 hd hkr
      by_cases hsize : min_size ≤ (k s task a d).1.region_size
      · rw [scan_iteration_found _ _ _ _ _ _ _ _ hkr hsize] at h
        simp only [Option.some.injEq] at h
        subst h
        exact hbase
      · have hlt : (k s task a d).1.region_size < min_size := Nat.lt_of_not_le hsize
        rw [scan_iteration_small _ _ _ _ _ _ _ _ hkr hlt] at h
        rw [Nat.mod_eq_of_lt (htop s a d hkr)] at h
        have hnext := ih _ _ _ _ ⟨s, a, d, hkr, rfl, Or.inr rfl⟩ h hs
        omega
    · rw [scan_iteration_failed _ _ _ _ _ _ _ _ hkr] at h
      simp only [Option.some.injEq] at h
      subst h
      exact absurd hs hkr

theorem repeated_scan_succ {σ : Type} (fuel : Nat) (k : Kernel σ)
    (task min_size out_address out_size : Nat) (calls : Nat) (s : σ) (hint : Nat) :
    repeated_scan fuel k task min_size out_address out_size (calls + 1) s hint =
      match mach_find_large_region fuel k s task hint min_size out_address out_size with
      | none => ([], none)
      | some res =>
        if res.kr = KERN_SUCCESS then
          ((res.out_address, res.out_size) ::
              (repeated_scan fuel k task min_size out_address out_size calls res.kernel
                ((res.out_address + res.out_size) % ADDRESS_SPACE)).1,
            (repeated_scan fuel k task min_size out_address out_size calls res.kernel
                ((res.out_address + res.out_size) % ADDRESS_SPACE)).2)
        else ([], some res.kr) := rfl

theorem repeated_scan_chain {σ : Type} (fuel : Nat) (k : Kernel σ)
    (task min_size out_address out_size : Nat) (hmap : RegionMap k task)
    (htop : EndsBelowTop k task) :
    ∀ (calls : Nat) (s : σ) (hint : Nat),
      List.Chain' (fun p q : Nat × Nat => p.1 + p.2 ≤ q.1 ∧ p.1 < q.1)
          (repeated_scan fuel k task min_size out_address out_size calls s hint).1 ∧
        (ReportedEnd k task hint 1 →
          ∀ p ∈ (repeated_scan fuel k task min_size out_address out_size calls s hint).1.head?,
            hint ≤ p.1) := by
  intro calls
  induction calls with
  | zero => intro s hint; simp [repeated_scan]
  | succ n ih =>
    intro s hint
    rw [repeated_scan_succ]
    cases hrun : mach_find_large_region fuel k s task hint min_size out_address out_size with
    | none => simp
    | some res =>
      by_cases hs : res.kr = KERN_SUCCESS
      · simp only [hs, if_true]
        obtain ⟨s0, a0, d0, _, hk0, hb0, hsz0⟩ := scan_loop_found_reply k task min_size
          out_address out_size hmap htop fuel s hint 1 res hrun hs
        have hlt : res.out_address + res.out_size < ADDRESS_SPACE := by
          have := htop s0 a0 d0 hk0
          rwa [hb0, hsz0] at this
        have hpos : 0 < res.out_size := by
          have := hmap.nonempty s0 a0 d0 hk0
          rwa [hsz0] at this
        rw [Nat.mod_eq_of_lt hlt]
        obtain ⟨hchain, hhead⟩ := ih res.kernel (res.out_address + res.out_size)
        refine ⟨?_, ?_⟩
        · rw [List.chain'_cons']
          refine ⟨?_, hchain⟩
          intro q hq
          have hq' := hhead ⟨s0, a0, d0, hk0, by rw [hb0, hsz0], Or.inl rfl⟩ q hq
          exact ⟨hq', by omega⟩
        · intro hend p hp
          simp only [List.head?_cons, Option.mem_def, Option.some.injEq] at hp
          subst hp
          exact scan_loop_from_reported_end k task min_size out_address out_size hmap htop
            fuel s hint 1 res hend hrun hs
      · simp [hs]

theorem repeated_scan_ends {σ : Type} (fuel : Nat) (k : Kernel σ)
    (task min_size out_address out_size : Nat) (hmap : RegionMap k task)
    (htop : EndsBelowTop k task) (hfuel : ADDRESS_SPACE < fuel) :
    ∀ (calls : Nat) (s : σ) (hint : Nat), ADDRESS_SPACE - hint < calls →
      (repeated_scan fuel k task min_size out_address out_size calls s hint).1.length
          ≤ ADDRESS_SPACE - hint ∧
        ∃ kr, kr ≠ KERN_SUCCESS ∧
          (repeated_scan fuel k task min_size out_address out_size calls s hint).2 = some kr := by
  intro calls
  induction calls with
  | zero => intro s hint h; exact absurd h (Nat.not_lt_zero _)
  | succ n ih =>
    intro s hint hcalls
    rw [repeated_scan_succ]
    obtain ⟨res, hrun⟩ := scan_loop_returns k task min_size out_address out_size
      (regionMap_advances k task min_size hmap htop) fuel s hint 1 (by omega)
    have hrun' : mach_find_large_region fuel k s task hint min_size out_address out_size
        = some res := hrun
    rw [hrun']
    by_cases hs : res.kr = KERN_SUCCESS
    · simp only [hs, if_true]
      obtain ⟨s0, a0, d0, hle0, hk0, hb0, hsz0⟩ := scan_loop_found_reply k task min_size
        out_address out_size hmap htop fuel s hint 1 res hrun hs
      have h1 := hmap.ends_after_query s0 a0 d0 hk0
      have h2 := htop s0 a0 d0 hk0
      rw [hb0, hsz0] at h1 h2
      rw [Nat.mod_eq_of_lt h2]
      obtain ⟨hlen, hkr⟩ := ih res.kernel (res.out_address + res.out_size) (by omega)
      refine ⟨?_, hkr⟩
      simp only [List.length_cons]
      omega
    · simp only [hs, if_false]
      exact ⟨by simp, res.kr, hs, rfl⟩

theorem nestedRegions_isMap (task : Nat) : RegionMap nestedRegions task := by
  refine ⟨?_, ?_, ?_⟩
  · intro s a d hkr
    simp only [nestedRegions] at hkr ⊢
    split_ifs at hkr ⊢ <;> simp_all [KERN_INVALID_ADDRESS, KERN_SUCCESS]
  · intro s a d hkr
    simp only [nestedRegions] at hkr ⊢
    split_ifs at hkr ⊢ <;> simp_all [KERN_INVALID_ADDRESS, KERN_SUCCESS]
  · intro s a d s' d' hkr hd hkr'
    simp only [nestedRegions] at hkr hd hkr' ⊢
    split_ifs at hkr hd hkr' ⊢ <;> simp_all [KERN_INVALID_ADDRESS, KERN_SUCCESS]

theorem nestedRegions_endsBelowTop (task : Nat) : EndsBelowTop nestedRegions task := by
  intro s a d hkr
  simp only [nestedRegions] at hkr ⊢
  split_ifs at hkr ⊢ <;> simp_all [KERN_INVALID_ADDRESS, KERN_SUCCESS, ADDRESS_SPACE]

theorem topRegion_reply (s : Unit) (task a d : Nat) :
    (topRegion s task a d).1 =
      if a < 69632 then ⟨KERN_SUCCESS, 4096, 65536, 0⟩
      else if a < 2 ^ 64 then ⟨KERN_SUCCESS, 2 ^ 64 - 4096, 4096, 0⟩
      else ⟨KERN_INVALID_ADDRESS, a, 0, d⟩ := by
  by_cases h : a < 69632
  · simp [topRegion, flatKernel, regionAt, h]
  · by_cases h' : a < 18446744073709551616 <;>
      simp [topRegion, flatKernel, regionAt, h, h']

theorem topRegion_isMap (task : Nat) : RegionMap topRegion task := by
  refine ⟨?_, ?_, ?_⟩
  · intro s a d hkr
    rw [topRegion_reply] at hkr ⊢
    split_ifs at hkr ⊢ <;> simp_all [KERN_INVALID_ADDRESS, KERN_SUCCESS]
  · intro s a d hkr
    rw [topRegion_reply] at hkr ⊢
    split_ifs at hkr ⊢ <;> simp_all [KERN_INVALID_ADDRESS, KERN_SUCCESS]
  · intro s a d s' d' hkr _ hkr'
    rw [topRegion_reply] at hkr
    rw [topRegion_reply s task a d] at hkr' ⊢
    rw [topRegion_reply] at hkr' ⊢
    split_ifs at hkr hkr' ⊢ <;> simp_all [KERN_INVALID_ADDRESS, KERN_SUCCESS]

/-- C8, as the code has it: over a kernel that answers out of one fixed map
(non-empty regions, each reply ending after the address queried, enumerated in
increasing address order) whose regions all end below `2 ^ 64`, the regions
returned by calling the scan again with `hint = previous base + previous size`
have strictly increasing bases, each at or after the end of the region before
it; and when every call is given more than `2 ^ 64` passes, at most
`2 ^ 64 - hint` calls succeed and the call after them returns a failure
status. -/
theorem repeated_scan_increases_and_ends {σ : Type} (k : Kernel σ) (fuel : Nat)
    (task min_size out_address out_size : Nat) (hmap : RegionMap k task)
    (htop : EndsBelowTop k task) (hfuel : ADDRESS_SPACE < fuel) :
    (∀ (calls : Nat) (s : σ) (hint : Nat),
      List.Chain' (fun p q : Nat × Nat => p.1 + p.2 ≤ q.1 ∧ p.1 < q.1)
        (repeated_scan fuel k task min_size out_address out_size calls s hint).1) ∧
    (∀ (calls : Nat) (s : σ) (hint : Nat), ADDRESS_SPACE - hint < calls →
      (repeated_scan fuel k task min_size out_address out_size calls s hint).1.length
          ≤ ADDRESS_SPACE - hint ∧
        ∃ kr, kr ≠ KERN_SUCCESS ∧
          (repeated_scan fuel k task min_size out_address out_size calls s hint).2
            = some kr) :=
  ⟨fun calls s hint =>
      (repeated_scan_chain fuel k task min_size out_address out_size hmap htop calls s hint).1,
    repeated_scan_ends fuel k task min_size out_address out_size hmap htop hfuel⟩

theorem repeated_scan_increases_and_ends_witness :
    RegionMap nestedRegions 7 ∧ EndsBelowTop nestedRegions 7 ∧
    ADDRESS_SPACE < ADDRESS_SPACE + 1 ∧
    (nestedRegions () 7 24576 0).1 = ⟨KERN_SUCCESS, 16384, 16384, 0⟩ ∧
    (nestedRegions () 7 24576 1).1 = ⟨KERN_SUCCESS, 24576, 8192, 1⟩ ∧
    repeated_scan (ADDRESS_SPACE + 1) nestedRegions 7 4096 11 22 5 () 0
      = ([(4096, 4096), (16384, 8192), (24576, 8192)], some KERN_INVALID_ADDRESS) ∧
    ((∀ (calls : Nat) (s : Unit) (hint : Nat),
      List.Chain' (fun p q : Nat × Nat => p.1 + p.2 ≤ q.1 ∧ p.1 < q.1)
        (repeated_scan (ADDRESS_SPACE + 1) nestedRegions 7 4096 11 22 calls s hint).1) ∧
    (∀ (calls : Nat) (s : Unit) (hint : Nat), ADDRESS_SPACE - hint < calls →
      (repeated_scan (ADDRESS_SPACE + 1) nestedRegions 7 4096 11 22 calls s hint).1.length
          ≤ ADDRESS_SPACE - hint ∧
        ∃ kr, kr ≠ KERN_SUCCESS ∧
          (repeated_scan (ADDRESS_SPACE + 1) nestedRegions 7 4096 11 22 calls s hint).2
            = some kr)) :=
  ⟨nestedRegions_isMap 7, nestedRegions_endsBelowTop 7, Nat.lt_succ_self _, by decide,
    by decide, by decide,
    repeated_scan_increases_and_ends nestedRegions (ADDRESS_SPACE + 1) 7 4096 11 22
      (nestedRegions_isMap 7) (nestedRegions_endsBelowTop 7) (Nat.lt_succ_self _)⟩

theorem topRegion_repeats_from_end :
    ∀ calls : Nat, repeated_scan 5 topRegion 7 8192 11 22 calls () 69632
      = (List.replicate calls (4096, 65536), none) := by
  intro calls
  induction calls with
  | zero => rfl
  | succ n ih =>
    have hrun : mach_find_large_region 5 topRegion () 7 69632 8192 11 22
        = some ⟨KERN_SUCCESS, 4096, 65536, ()⟩ := by decide
    rw [repeated_scan_succ, hrun]
    simp only [if_true, List.replicate_succ]
    rw [show ((4096 : Nat) + 65536) % ADDRESS_SPACE = 69632 from by decide, ih]

theorem topRegion_repeats_from_zero :
    ∀ calls : Nat, repeated_scan 5 topRegion 7 8192 11 22 calls () 0
      = (List.replicate calls (4096, 65536), none) := by
  intro calls
  cases calls with
  | zero => rfl
  | succ n =>
    have hrun : mach_find_large_region 5 topRegion () 7 0 8192 11 22
        = some ⟨KERN_SUCCESS, 4096, 65536, ()⟩ := by decide
    rw [repeated_scan_succ, hrun]
    simp only [if_true, List.replicate_succ]
    rw [show ((4096 : Nat) + 65536) % ADDRESS_SPACE = 69632 from by decide,
      topRegion_repeats_from_end n]

theorem topRegion_reaches_top : ¬ EndsBelowTop topRegion 7 := by
  intro h
  exact absurd (h () (2 ^ 64 - 4096) 1 (by decide)) (by decide)

/-- C8 fails as stated: `topRegion` answers out of one fixed map, in
increasing address order, and its last page ends at `2 ^ 64`.  The scan for
8192 bytes called again from the end of the region it found walks over the
top of the address space and returns the same region at 4096 every time,
however many calls are made. -/
theorem repeated_scan_over_top_region_repeats :
    RegionMap topRegion 7 ∧ ¬ EndsBelowTop topRegion 7 ∧
      repeated_scan 5 topRegion 7 8192 11 22 3 () 0
        = ([(4096, 65536), (4096, 65536), (4096, 65536)], none) ∧
      ¬ ((4096 : Nat) < 4096) ∧ ¬ ((4096 : Nat) + 65536 ≤ 4096) ∧
      ∀ calls : Nat, repeated_scan 5 topRegion 7 8192 11 22 calls () 0
        = (List.replicate calls (4096, 65536), none) :=
  ⟨topRegion_isMap 7, topRegion_reaches_top, by decide, by decide, by decide,
    topRegion_repeats_from_zero⟩

end MachHelpers
